import Mathlib

/-!
Verification development for the mixminion packet-construction engine
(`lib/mixminion/BuildMessage.py`) and the MMTP transport server
(`lib/mixminion/server/MMTPServer.py`).

Byte strings are modelled as `List Nat` (each element one byte).  The
cryptographic primitives live in `mixminion/Crypto.py` and the packet codec in
`mixminion/Packet.py`, which are not part of the sources under examination;
they are modelled from the specification, each such definition carrying a
doc comment that starts with `Modelled from the spec:`.
-/

/-- Header length in bytes (`Packet.HEADER_LEN`); the spec fixes it at 2048. -/
def HEADER_LEN : Nat := 2048

/-- Payload length in bytes (`Packet.PAYLOAD_LEN = 28*1024`). -/
def PAYLOAD_LEN : Nat := 28 * 1024

/-- Length of a decoding tag (`Packet.TAG_LEN`). -/
def TAG_LEN : Nat := 20

/-- Length of a master secret (`Packet.SECRET_LEN`). -/
def SECRET_LEN : Nat := 16

/-- Length of a SHA-1 digest (`Packet.DIGEST_LEN`). -/
def DIGEST_LEN : Nat := 20

/-- Bytes of overhead in a singleton payload (`Packet.SINGLETON_PAYLOAD_OVERHEAD`):
flag/size word (2) plus hash (20). -/
def SINGLETON_PAYLOAD_OVERHEAD : Nat := 22

/-- Bytes of overhead in a fragment payload (`Packet.FRAGMENT_PAYLOAD_OVERHEAD`). -/
def FRAGMENT_PAYLOAD_OVERHEAD : Nat := 47

/-- Modelled from the spec: `ENC_FWD_OVERHEAD`, the extra bytes consumed by an
encrypted-forward packet (session key plus OAEP padding); `Packet.py` is not in
the sources, the spec gives the value 42. -/
def ENC_FWD_OVERHEAD : Nat := 42

/-- Modelled from the spec: `Crypto.OAEP_OVERHEAD`, the overhead of OAEP padding
with SHA-1 as MGF hash (2 * 20 + 2 = 42); `Crypto.py` is not in the sources. -/
def OAEP_OVERHEAD : Nat := 42

/-- Modelled from the spec: `Packet.MIN_SUBHEADER_LEN`, the fixed prefix of a
subheader `{major:u8, minor:u8, secret:16, digest:20, rt:u16, ri_len:u16}`,
so 1+1+16+20+2+2 = 42 bytes; `Packet.py` is not in the sources. -/
def MIN_SUBHEADER_LEN : Nat := 42

/-- Modelled from the spec: `Packet.ENC_SUBHEADER_LEN`, the size of one
RSA-encrypted subheader block; the spec's test vectors use 2048-bit RSA keys,
so one block is 256 bytes; `Packet.py` is not in the sources. -/
def ENC_SUBHEADER_LEN : Nat := 256

/-- Modelled from the spec: `Packet.MAX_ROUTING_INFO_LEN`, the routing-info
bytes that fit in the RSA-encrypted region next to the fixed subheader prefix:
`(ENC_SUBHEADER_LEN - OAEP_OVERHEAD) - MIN_SUBHEADER_LEN` = 214 - 42 = 172. -/
def MAX_ROUTING_INFO_LEN : Nat := ENC_SUBHEADER_LEN - OAEP_OVERHEAD - MIN_SUBHEADER_LEN

/-- Packet major version number (`Packet.MAJOR_NO`). -/
def MAJOR_NO : Nat := 0

/-- Packet minor version number (`Packet.MINOR_NO`). -/
def MINOR_NO : Nat := 3

/-- Smallest exit routing type (`Packet.MIN_EXIT_TYPE = 0x100`). -/
def MIN_EXIT_TYPE : Nat := 256

/-- Convert a string literal to its list of byte values (ASCII). -/
def strB (s : String) : List Nat := (s.toList).map Char.toNat

/-- Modelled from the spec: the key-derivation mode labels of `Crypto.Keyset`
(`Crypto.py` is not in the sources).  Distinct constructors stand for the
distinct string labels of the source. -/
inductive Mode where
  | headerSecret
  | headerEncrypt
  | payloadEncrypt
  | randomJunk
  | endToEnd
deriving DecidableEq, Repr

/-- Modelled from the spec: the symmetric primitives of `mixminion/Crypto.py`,
which is not in the sources.  `sha1` is the SHA-1 hash; `lionessE`/`lionessD`
are the LIONESS wide-block SPRP (encrypt/decrypt) keyed by the 4-tuple that
`lionessKeys secret mode` (the source's `Keyset(secret).getLionessKeys(mode)`)
derives; `ksGet` is `Keyset(secret).get(mode)` giving an AES-CTR key; `ctr key
data idx` is `Crypto.ctr_crypt(data, key, idx)`; `prngK key n` is
`Crypto.prng(key, n)`; `prngSecret seed i` is the i-th 16-byte block drawn by
successive `getBytes(SECRET_LEN)` calls on `Crypto.AESCounterPRNG(seed)`. -/
structure Crypto where
  sha1 : List Nat → List Nat
  lionessE : List Nat → List Nat → List Nat
  lionessD : List Nat → List Nat → List Nat
  lionessKeys : List Nat → Mode → List Nat
  ksGet : List Nat → Mode → List Nat
  ctr : List Nat → List Nat → Nat → List Nat
  prngK : List Nat → Nat → List Nat
  prngSecret : List Nat → Nat → List Nat

/-- The error kinds raised by the embedded code (`MixError` in the source,
distinguished here by the raise site). -/
inductive MixErr where
  | wrongPayloadLen
  | wrongTagLen
  | corruptReply
  | corruptEncFwd
  | headerTooBig
deriving DecidableEq, Repr

/-- Result of parsing a 28 KiB payload: a singleton or a fragment. -/
inductive ParsedPayload where
  | singleton (size : Nat) (hash : List Nat) (data : List Nat)
  | fragment (index : Nat) (hash : List Nat) (msgid : List Nat) (totalLen : Nat)
      (data : List Nat)
deriving DecidableEq, Repr

/-- Read a big-endian 16-bit word as two bytes. -/
def u16 (x : Nat) : List Nat := [x / 256 % 256, x % 256]

/-- Modelled from the spec: `Packet.parsePayload` (`Packet.py` is not in the
sources).  The high bit of byte 0 selects singleton (0) or fragment (1); a
singleton is `{size:u16, hash:20, data, padding}` with `data` of `size` bytes
after the hash, a fragment is `{flag byte, index:u16, hash:20, msgid:20,
total_len:u32, data}`. -/
def parsePayload (p : List Nat) : ParsedPayload :=
  if (p.headD 0) &&& 128 = 0 then
    let size := (p.headD 0) * 256 + ((p.drop 1).headD 0)
    ParsedPayload.singleton size ((p.drop 2).take 20) (((p.drop 22)).take size)
  else
    let index := ((p.drop 1).headD 0) * 256 + ((p.drop 2).headD 0)
    let totalLen := (((p.drop 43).headD 0) * 256 * 256 * 256)
      + (((p.drop 44).headD 0) * 256 * 256) + (((p.drop 45).headD 0) * 256)
      + ((p.drop 46).headD 0)
    ParsedPayload.fragment index ((p.drop 3).take 20) ((p.drop 23).take 20)
      totalLen (p.drop 47)

/-- Embeds `BuildMessage._checkPayload`: true iff the stored hash matches the
SHA-1 of the rest of the payload (offsets 3/23 for fragments, 2/22 for
singletons). -/
def checkPayload (C : Crypto) (p : List Nat) : Bool :=
  if (p.headD 0) &&& 128 ≠ 0 then
    ((p.drop 3).take 20) == C.sha1 (p.drop 23)
  else
    ((p.drop 2).take 20) == C.sha1 (p.drop 22)

/-- Modelled from the spec: an RSA private key as used by `Crypto.pk_decrypt`
(`Crypto.py` is not in the sources): `modBytes` is `get_modulus_bytes()`,
`dec` returns `none` when OAEP unpadding fails (the source's `CryptoError`). -/
structure RSAKeyM where
  modBytes : Nat
  dec : List Nat → Option (List Nat)

/-- Modelled from the spec: an RSA public key as used by `Crypto.pk_encrypt`
(`Crypto.py` is not in the sources).  `enc j m` is the OAEP-padded RSA
encryption of `m` with the j-th draw of OAEP randomness; a ciphertext is
always `modBytes` bytes, and some draw of randomness yields a ciphertext whose
leading byte has the high bit clear (the spec: expected two draws). -/
structure PacketKey where
  modBytes : Nat
  enc : Nat → List Nat → List Nat
  hpos : 0 < modBytes
  hlen : ∀ j m, (enc j m).length = modBytes
  hex : ∀ m, ∃ j, ((enc j m).headD 0) &&& 128 = 0

/-- Modelled from the spec: `Crypto.pk_encrypt` (`Crypto.py` is not in the
sources).  Per the spec it "rejects ciphertexts whose leading byte has the
high bit set, and retries with fresh OAEP randomness": the result is the first
randomness draw whose ciphertext has a clear high bit. -/
def pkEncrypt (k : PacketKey) (m : List Nat) : List Nat :=
  k.enc (Nat.find (k.hex m)) m

theorem pkEncrypt_clear (k : PacketKey) (m : List Nat) :
    ((pkEncrypt k m).headD 0) &&& 128 = 0 :=
  Nat.find_spec (k.hex m)

theorem pkEncrypt_length (k : PacketKey) (m : List Nat) :
    (pkEncrypt k m).length = k.modBytes :=
  k.hlen _ m

theorem pkEncrypt_ne_nil (k : PacketKey) (m : List Nat) :
    pkEncrypt k m ≠ [] := by
  intro h
  have := pkEncrypt_length k m
  rw [h] at this
  simp at this
  exact Nat.lt_irrefl 0 (this ▸ k.hpos)

/-- Modelled from the spec: the per-fragment data capacity used by
`Fragments.FragmentationParams` (`Fragments.py` is not in the sources): a
fragment payload of `PAYLOAD_LEN` bytes spends `FRAGMENT_PAYLOAD_OVERHEAD`
bytes on its envelope and `overhead` bytes on the message-encoding overhead. -/
def fragCapacity (overhead : Nat) : Nat :=
  PAYLOAD_LEN - FRAGMENT_PAYLOAD_OVERHEAD - overhead

/-- Modelled from the spec: the result record of
`Fragments.FragmentationParams(length, overhead)`; the spec treats the
fragmentation module as an external collaborator that cuts the whitened
payload into `n * nChunks` fragment bodies. -/
structure FragParams where
  length : Nat
  overhead : Nat
  n : Nat
  nChunks : Nat
deriving DecidableEq, Repr

/-- Modelled from the spec: `Fragments.FragmentationParams` (`Fragments.py` is
not in the sources), here the minimal model that cuts the payload into
ceiling(length / capacity) pieces of one chunk each. -/
def fragmentationParams (len overhead : Nat) : FragParams :=
  { length := len, overhead := overhead,
    n := (len + fragCapacity overhead - 1) / fragCapacity overhead,
    nChunks := 1 }

/-- Modelled from the spec: `FragmentationParams.getFragments`, returning the
`n` consecutive pieces of the payload. -/
def fragGetFragments (p : FragParams) (payload : List Nat) : List (List Nat) :=
  (List.range p.n).map
    (fun i => (payload.drop (i * fragCapacity p.overhead)).take (fragCapacity p.overhead))

/-- Modelled from the spec: `Packet.SingletonPayload(size, hash, data)` packing
after `computeHash()` (`Packet.py` is not in the sources): size word, then the
SHA-1 of everything after the hash field, then data plus padding. -/
def singletonPack (C : Crypto) (size : Nat) (data : List Nat) : List Nat :=
  u16 size ++ C.sha1 data ++ data

/-- Read a big-endian 32-bit word as four bytes. -/
def u32 (x : Nat) : List Nat :=
  [x / (256 * 256 * 256) % 256, x / (256 * 256) % 256, x / 256 % 256, x % 256]

/-- Modelled from the spec: `Packet.FragmentPayload(index, hash, msgid,
totalLen, data)` packing after `computeHash()`: a flag byte with the high bit
set, the index word, the SHA-1 of everything after the hash field, message id,
total length, data. -/
def fragmentPack (C : Crypto) (index : Nat) (msgid : List Nat) (totalLen : Nat)
    (data : List Nat) : List Nat :=
  [128] ++ u16 index ++ C.sha1 (msgid ++ u32 totalLen ++ data)
    ++ msgid ++ u32 totalLen ++ data

/-- Embeds `BuildMessage.getNPacketsToEncode(message, overhead,
uncompressedFragmentPrefix)`.  `compress` stands for the external
`compressData`; `fragPre` is the uncompressed fragment prefix. -/
def getNPacketsToEncode (compress : List Nat → List Nat) (message : List Nat)
    (overhead : Nat) (fragPre : List Nat) : Nat :=
  let compressedLen := (compress message).length
  let paddingLen : Int := (PAYLOAD_LEN : Int) - SINGLETON_PAYLOAD_OVERHEAD
    - overhead - compressedLen
  if 0 ≤ paddingLen then 1
  else
    let compressedLen := if fragPre ≠ [] then compressedLen + fragPre.length
      else compressedLen
    let p := fragmentationParams compressedLen overhead
    p.n * p.nChunks

/-- Embeds `BuildMessage.encodeMessage(message, overhead,
uncompressedFragmentPrefix, paddingPRNG)`.  `compress` stands for the external
`compressData`, `padBytes n` for `paddingPRNG.getBytes(n)`, and `messageid`
for the 20 random bytes drawn for a fragmented message. -/
def encodeMessage (C : Crypto) (compress : List Nat → List Nat)
    (message : List Nat) (overhead : Nat) (fragPre : List Nat)
    (padBytes : Nat → List Nat) (messageid : List Nat) : List (List Nat) :=
  let payload := compress message
  let length := payload.length
  let paddingLen : Int := (PAYLOAD_LEN : Int) - SINGLETON_PAYLOAD_OVERHEAD
    - overhead - length
  if 0 ≤ paddingLen then
    [singletonPack C length (payload ++ padBytes paddingLen.toNat)]
  else
    let payload := fragPre ++ payload
    let p := fragmentationParams payload.length overhead
    let raw := fragGetFragments p payload
    (raw.enum).map (fun e => fragmentPack C e.1 messageid p.length e.2)

/-- Byte string of the literal `"Validate"` used in the SURB key schedule. -/
def validateLabel : List Nat := strB ("Validate")

/-- Byte string of the literal `"Generate"` used in the SURB key schedule. -/
def generateLabel : List Nat := strB ("Generate")

/-- Embeds `BuildMessage._decodeEncryptedForwardPayload(payload, tag, key)`:
RSA-decrypt the first `modulus_bytes` of `tag ++ payload` (returning `none` on
`CryptoError`), take the first `SECRET_LEN` bytes as a session key,
LIONESS-decrypt the rest under `END_TO_END_ENCRYPT_MODE`, then check the hash
and parse, raising on a bad checksum. -/
def decodeEncryptedForwardPayload (C : Crypto) (payload tag : List Nat)
    (key : RSAKeyM) : Except MixErr (Option ParsedPayload) :=
  let msg := tag ++ payload
  match key.dec (msg.take key.modBytes) with
  | none => Except.ok none
  | some rsaPart =>
    let rest := msg.drop key.modBytes
    let rest := rsaPart.drop SECRET_LEN
      ++ C.lionessD (C.lionessKeys (rsaPart.take SECRET_LEN) Mode.endToEnd) rest
    if checkPayload C rest then Except.ok (some (parsePayload rest))
    else Except.error MixErr.corruptEncFwd

/-- Embeds `BuildMessage._decodeReplyPayload(payload, secrets, check)`: apply
`lioness_encrypt` under `PAYLOAD_ENCRYPT_MODE` for each secret in order; when
`check` is set, test the hash after every step and return the parse on the
first success; after the loop, raise unless (`check` unset and) the hash
verifies. -/
def decodeReplyPayload (C : Crypto) (check : Bool) :
    List Nat → List (List Nat) → Except MixErr ParsedPayload
  | p, [] =>
    if check || !(checkPayload C p) then Except.error MixErr.corruptReply
    else Except.ok (parsePayload p)
  | p, s :: rest =>
    let q := C.lionessE (C.lionessKeys s Mode.payloadEncrypt) p
    if check && checkPayload C q then Except.ok (parsePayload q)
    else decodeReplyPayload C check q rest

/-- Embeds `BuildMessage._decodeStatelessReplyPayload(payload, tag, userKey)`:
regenerate 17 consecutive 16-byte secrets from the AES-CTR PRNG seeded with
`sha1(tag ++ userKey ++ "Generate")[:16]` and run the checked reply decode. -/
def decodeStatelessReplyPayload (C : Crypto) (payload tag userKey : List Nat) :
    Except MixErr ParsedPayload :=
  decodeReplyPayload C true payload
    ((List.range 17).map (C.prngSecret ((C.sha1 (tag ++ userKey ++ generateLabel)).take 16)))

/-- Embeds the user-key loop of `BuildMessage.decodePayload`: for each
`(name, userKey)` whose validate byte (last byte of
`sha1(tag ++ userKey ++ "Validate")`) is zero, attempt the stateless reply
decode, swallowing `MixError` and moving on to the next key. -/
def decodePayloadUserKeys (C : Crypto) (payload tag : List Nat) :
    List (String × List Nat) → Option ParsedPayload
  | [] => none
  | (_, userKey) :: rest =>
    if (C.sha1 (tag ++ userKey ++ validateLabel)).getLast?.getD 1 = 0 then
      match decodeStatelessReplyPayload C payload tag userKey with
      | Except.ok p => some p
      | Except.error _ => decodePayloadUserKeys C payload tag rest
    else decodePayloadUserKeys C payload tag rest

/-- Embeds `BuildMessage.decodePayload(payload, tag, key, userKeys)` with
`userKeys` already in the canonical list-of-pairs form and the `retNym`
out-parameter dropped (it only accumulates the matching name).  Length guards
first, then the forward check, then the empty-tag bailout, the user-key loop,
and finally the encrypted-forward attempt. -/
def decodePayload (C : Crypto) (payload tag : List Nat) (key : Option RSAKeyM)
    (userKeys : List (String × List Nat)) : Except MixErr (Option ParsedPayload) :=
  if payload.length ≠ PAYLOAD_LEN then Except.error MixErr.wrongPayloadLen
  else if ¬(tag.length = 0 ∨ tag.length = TAG_LEN) then Except.error MixErr.wrongTagLen
  else if checkPayload C payload then Except.ok (some (parsePayload payload))
  else if tag.isEmpty then Except.ok none
  else match decodePayloadUserKeys C payload tag userKeys with
    | some p => Except.ok (some p)
    | none =>
      match key with
      | none => Except.ok none
      | some k => decodeEncryptedForwardPayload C payload tag k

/-- Embeds `BuildMessage._getRouting(path, exitType, exitInfo)`.  The per-hop
routing pairs `path[i].getRoutingFor(path[i+1])` come from the external
`ServerInfo` objects and are taken here as the already-computed list
`hopRoutes`; the function appends the exit pair, computes the per-subheader
sizes and the total, and raises `MixError` when the total exceeds
`HEADER_LEN` or when the last subheader cannot be padded out to a full
RSA block. -/
def getRouting (hopRoutes : List (Nat × List Nat)) (exitType : Nat)
    (exitInfo : List Nat) :
    Except MixErr (List (Nat × List Nat) × List Nat × Nat) :=
  let routing := hopRoutes ++ [(exitType, exitInfo)]
  let sizes := routing.map (fun r => r.2.length + OAEP_OVERHEAD + MIN_SUBHEADER_LEN)
  let totalSize := sizes.foldl (· + ·) 0
  if totalSize > HEADER_LEN then Except.error MixErr.headerTooBig
  else
    let padding := HEADER_LEN - totalSize
    if padding + sizes.getLast?.getD 0 < ENC_SUBHEADER_LEN then
      Except.error MixErr.headerTooBig
    else Except.ok (routing, sizes, totalSize)

/-- Modelled from the spec: `Packet.Subheader.pack()` (`Packet.py` is not in
the sources): version bytes, secret, digest, routing type, routing-info
length, and the part of the routing info that fits the RSA-encrypted
region. -/
def subheadPack (secret digest : List Nat) (rt : Nat) (ri : List Nat) : List Nat :=
  [MAJOR_NO, MINOR_NO] ++ secret ++ digest ++ u16 rt ++ u16 ri.length
    ++ ri.take MAX_ROUTING_INFO_LEN

/-- Modelled from the spec: `Packet.Subheader.getOverflow()`, the routing-info
bytes that spill out of the RSA-encrypted region. -/
def subheadOverflow (ri : List Nat) : List Nat := ri.drop MAX_ROUTING_INFO_LEN

/-- Modelled from the spec: `Packet.Subheader.getUnderflowLength()`, the bytes
of the following header material pulled into the RSA-encrypted region when the
routing info leaves room (`max(0, MAX_ROUTING_INFO_LEN - len(ri))`, here by
truncated subtraction). -/
def subheadUnderflowLength (ri : List Nat) : Nat := MAX_ROUTING_INFO_LEN - ri.length

/-- A node on a path as `BuildMessage._buildHeader` consumes it: its RSA
packet key (`getPacketKey()`) and the routing pair its predecessor-facing
`getRoutingFor` call produced for the next hop (external `ServerInfo` data). -/
structure HopM where
  key : PacketKey
  rt : Nat
  ri : List Nat

/-- One entry of the per-hop data zipped together for the subheader loop of
`BuildMessage._buildHeader`: the hop's key, its master secret, its routing
pair and the junk it will see. -/
structure HeaderEntry where
  key : PacketKey
  secret : List Nat
  rt : Nat
  ri : List Nat
  junk : List Nat

/-- Embeds the junk precomputation of `BuildMessage._buildHeader`:
`junkSeen[0] = ""`, and `junkSeen[i+1]` is `junkSeen[i]` plus `size[i]` bytes
from the hop's junk PRNG, CTR-encrypted under the hop's header-secret key
starting at offset `HEADER_LEN - ENC_SUBHEADER_LEN - len(junkSeen[i])`. -/
def buildHeaderJunk (C : Crypto) (secrets : List (List Nat)) (sizes : List Nat) :
    List (List Nat) :=
  (secrets.zip sizes).foldl
    (fun acc e =>
      let lastJunk := acc.getLast?.getD []
      acc ++ [C.ctr (C.ksGet e.1 Mode.headerSecret)
        (lastJunk ++ C.prngK (C.ksGet e.1 Mode.randomJunk) e.2)
        (HEADER_LEN - ENC_SUBHEADER_LEN - lastJunk.length)])
    [[]]

/-- Embeds one iteration of the subheader loop of
`BuildMessage._buildHeader` (source lines 640-677): pull the underflow out of
the header, prepend the overflow, CTR-encrypt under the hop's header-secret
key, compute the digest the next server will see, RSA-encrypt the packed
subheader plus underflow, and prepend the result. -/
def buildHeaderStep (C : Crypto) (e : HeaderEntry) (header : List Nat) : List Nat :=
  let underflowLength := subheadUnderflowLength e.ri
  let underflow := header.take underflowLength
  let header := header.drop underflowLength
  let header := subheadOverflow e.ri ++ header
  let header := C.ctr (C.ksGet e.secret Mode.headerSecret) header 0
  let digest := C.sha1 (header ++ e.junk)
  let esh := pkEncrypt e.key (subheadPack e.secret digest e.rt e.ri ++ underflow)
  esh ++ header

/-- The subheader loop of `BuildMessage._buildHeader`, iterating over the hops
from the last to the first (a right fold). -/
def buildHeaderLoop (C : Crypto) (entries : List HeaderEntry) (init : List Nat) :
    List Nat :=
  entries.foldr (fun e h => buildHeaderStep C e h) init

/-- Zip the parallel per-hop lists of `BuildMessage._buildHeader` into
`HeaderEntry` records (node i is paired with `junkSeen[i]`; the surplus final
element of `junkSeen` is dropped by the zip). -/
def zipEntries : List HopM → List (List Nat) → List (Nat × List Nat) →
    List (List Nat) → List HeaderEntry
  | h :: hs, s :: ss, r :: rs, j :: js =>
    ⟨h.key, s, r.1, r.2, j⟩ :: zipEntries hs ss rs js
  | _, _, _, _ => []

/-- Embeds `BuildMessage._buildHeader(path, secrets, exitType, exitInfo,
paddingPRNG)` (the external `supportsPacketVersion` test is modelled as always
passing): compute the routing and sizes, precompute the junk, start from
`HEADER_LEN - totalSize` padding bytes and run the subheader loop. -/
def buildHeader (C : Crypto) (path : List HopM) (secrets : List (List Nat))
    (exitType : Nat) (exitInfo : List Nat) (padBytes : Nat → List Nat) :
    Except MixErr (List Nat) :=
  match getRouting ((path.dropLast).map (fun h => (h.rt, h.ri))) exitType exitInfo with
  | Except.error e => Except.error e
  | Except.ok (routing, sizes, totalSize) =>
    let junkSeen := buildHeaderJunk C secrets sizes
    Except.ok (buildHeaderLoop C (zipEntries path secrets routing junkSeen)
      (padBytes (HEADER_LEN - totalSize)))

/-- Embeds the RSA step of `BuildMessage.buildEncryptedForwardPacket`: the
session key is prepended to the payload and the first
`modulus_bytes - OAEP_OVERHEAD` bytes are RSA-encrypted.  The source's retry
loop around `pk_encrypt` exits on its first iteration because `pk_encrypt`
itself only returns ciphertexts with a clear high bit. -/
def buildEncryptedForwardEncrypted (k : PacketKey) (sessionKey payload0 : List Nat) :
    List Nat :=
  pkEncrypt k ((sessionKey ++ payload0).take (k.modBytes - OAEP_OVERHEAD))

/-- Embeds the payload preparation of
`BuildMessage.buildEncryptedForwardPacket` (source lines 180-207), returning
the decoding tag and the 28 KiB mixnet payload. -/
def buildEncryptedForwardParts (C : Crypto) (k : PacketKey)
    (sessionKey payload0 : List Nat) : List Nat × List Nat :=
  let payload := sessionKey ++ payload0
  let rsaDataLen := k.modBytes - OAEP_OVERHEAD
  let lionessPart := payload.drop rsaDataLen
  let encrypted := buildEncryptedForwardEncrypted k sessionKey payload0
  let lionessPart := C.lionessE (C.lionessKeys sessionKey Mode.endToEnd) lionessPart
  let payload := encrypted ++ lionessPart
  (payload.take TAG_LEN, payload.drop TAG_LEN)

/-- A reply block as `BuildMessage` builds and consumes it.  Of the source's
`ReplyBlock(header, useBy, routingType, routingInfo, encryptionKey)` the model
keeps the shared key and the tag, and carries the header's per-hop master
secrets directly (`headerSecrets`, in hop order): the 2048-byte header built
from them by `_buildHeader` transports exactly those secrets to the reply-leg
mixes, which is the role the header plays in the payload pipeline. -/
structure ReplyBlockM where
  headerSecrets : List (List Nat)
  encryptionKey : List Nat
  tag : List Nat

/-- Embeds the secret generation of `BuildMessage._buildReplyBlockImpl` as
called from `buildReplyBlock`: `len(path)+1` successive 16-byte draws from the
AES-CTR PRNG seeded with `sha1(seed ++ userKey ++ "Generate")[:16]` (the same
stream the decoder regenerates).  `n` is the path length. -/
def buildReplyBlockSecrets (C : Crypto) (seed userKey : List Nat) (n : Nat) :
    List (List Nat) :=
  (List.range (n + 1)).map
    (C.prngSecret ((C.sha1 (seed ++ userKey ++ generateLabel)).take 16))

/-- Embeds `BuildMessage.buildReplyBlock` / `_buildReplyBlockImpl` (source
lines 271-285, 305-324).  `seed` is the 20-byte tag produced by the source's
rejection-sampling loop; the loop's invariant - the last byte of
`sha1(seed ++ userKey ++ "Validate")` is zero - is taken as a hypothesis where
needed.  The header secrets are all but the last generated secret, reversed;
the shared (encryption) key is the last one; the tag is the seed. -/
def buildReplyBlock (C : Crypto) (seed userKey : List Nat) (n : Nat) : ReplyBlockM :=
  { headerSecrets := ((buildReplyBlockSecrets C seed userKey n).dropLast).reverse,
    encryptionKey := (buildReplyBlockSecrets C seed userKey n).getLast?.getD [],
    tag := seed }

/-- Embeds the payload transformations of `BuildMessage._constructMessage` for
a reply packet (`secrets2 = None`): the swap step LIONESS-encrypts the payload
under a key derived from the already-encrypted second header
(`lioness_keys_from_header`, here the opaque `kswap`), then each first-leg
secret encrypts it in reverse order under `PAYLOAD_ENCRYPT_MODE`. -/
def constructMessagePayload (C : Crypto) (secrets1 : List (List Nat))
    (kswap : List Nat) (payload : List Nat) : List Nat :=
  (secrets1.reverse).foldl
    (fun q s => C.lionessE (C.lionessKeys s Mode.payloadEncrypt) q)
    (C.lionessE kswap payload)

/-- Embeds the payload transformations of `BuildMessage.buildReplyPacket`
(source lines 229-234): LIONESS-decrypt the payload under
`PAYLOAD_ENCRYPT_MODE` keys from the reply block's shared key, then run the
`_constructMessage` payload steps. -/
def buildReplyPacketPayload (C : Crypto) (rb : ReplyBlockM)
    (secrets1 : List (List Nat)) (kswap : List Nat) (payload : List Nat) :
    List Nat :=
  constructMessagePayload C secrets1 kswap
    (C.lionessD (C.lionessKeys rb.encryptionKey Mode.payloadEncrypt) payload)

/-- Modelled from the spec: the payload transformation the mixnet applies to a
reply packet in transit (the per-hop server transform is not in the sources;
spec section 8 - walking the onion decrypts, at each hop, what the builder
encrypted, in inverse order).  Each first-leg hop LIONESS-decrypts the payload
with its master secret, the crossover point undoes the swap encryption, and
each reply-leg hop decrypts with the master secret carried by the SURB header,
in hop order. -/
def mixTransitReplyPayload (C : Crypto) (secrets1 : List (List Nat))
    (kswap : List Nat) (rb : ReplyBlockM) (p : List Nat) : List Nat :=
  let p := secrets1.foldl
    (fun q s => C.lionessD (C.lionessKeys s Mode.payloadEncrypt) q) p
  let p := C.lionessD kswap p
  rb.headerSecrets.foldl
    (fun q s => C.lionessD (C.lionessKeys s Mode.payloadEncrypt) q) p

/-- The composition of LIONESS decryptions under `PAYLOAD_ENCRYPT_MODE` for a
list of secrets, applied innermost-last (`lionessDecChain C [a, b] p`
decrypts first with `b`, then with `a`). -/
def lionessDecChain (C : Crypto) (secrets : List (List Nat)) (p : List Nat) :
    List Nat :=
  secrets.foldr (fun s q => C.lionessD (C.lionessKeys s Mode.payloadEncrypt) q) p

/-- Packet length in bytes (`Packet.PACKET_LEN`): two headers plus payload. -/
def PACKET_LEN : Nat := 2 * HEADER_LEN + PAYLOAD_LEN

/-- Embeds `MMTPServerConnection.MESSAGE_LEN = 6 + (1 << 15) + 20`. -/
def MESSAGE_LEN : Nat := 6 + 2 ^ 15 + 20

/-- Control line `"SEND\r\n"` (`MMTPServer.SEND_CONTROL`). -/
def sendControl : List Nat := strB ("SEND\r\n")

/-- Control line `"JUNK\r\n"` (`MMTPServer.JUNK_CONTROL`). -/
def junkControl : List Nat := strB ("JUNK\r\n")

/-- Control line `"RECEIVED\r\n"` (`MMTPServer.RECEIVED_CONTROL`). -/
def receivedControl : List Nat := strB ("RECEIVED\r\n")

/-- Control line `"REJECTED\r\n"` (`MMTPServer.REJECTED_CONTROL`). -/
def rejectedControl : List Nat := strB ("REJECTED\r\n")

/-- `MMTPServer.SEND_CONTROL_LEN`, the length of a control line. -/
def SEND_CONTROL_LEN : Nat := sendControl.length

/-- How an accepted message was consumed: the junk callback, the packet
consumer, or the reject callback. -/
inductive MMTPConsumed where
  | junk
  | packet (pkt : List Nat)
  | rejected
deriving DecidableEq

/-- What `MMTPServerConnection.onDataRead` does with one complete message:
either it shuts the connection down (unknown control line or bad checksum),
or it consumes the message one way and queues an acknowledgement. -/
inductive MMTPOut where
  | shutdown
  | reply (consumed : MMTPConsumed) (ack : List Nat)
deriving DecidableEq

/-- Embeds one iteration of the `while` loop of
`MMTPServerConnection.onDataRead` on a `MESSAGE_LEN`-byte message `data`:
split off the control line (`data[:6]`), the packet (`data[6:-20]`) and the
digest (`data[-20:]`); check the digest against `sha1(packet ++ label)`; then
dispatch to the junk callback, the reject callback, or the packet consumer
and queue `replyControl ++ replyDigest`. -/
def onDataReadOne (C : Crypto) (rejectPackets : Bool) (data : List Nat) : MMTPOut :=
  let control := data.take SEND_CONTROL_LEN
  let pkt := (data.drop SEND_CONTROL_LEN).take
    (data.length - SEND_CONTROL_LEN - DIGEST_LEN)
  let digest := data.drop (data.length - DIGEST_LEN)
  if control == junkControl then
    if C.sha1 (pkt ++ strB ("JUNK")) == digest then
      MMTPOut.reply MMTPConsumed.junk
        (receivedControl ++ C.sha1 (pkt ++ strB ("RECEIVED JUNK")))
    else MMTPOut.shutdown
  else if control == sendControl then
    if C.sha1 (pkt ++ strB ("SEND")) == digest then
      if rejectPackets then
        MMTPOut.reply MMTPConsumed.rejected
          (rejectedControl ++ C.sha1 (pkt ++ strB ("REJECTED")))
      else
        MMTPOut.reply (MMTPConsumed.packet pkt)
          (receivedControl ++ C.sha1 (pkt ++ strB ("RECEIVED")))
    else MMTPOut.shutdown
  else MMTPOut.shutdown

/-- The bandwidth-related state of `MMTPServer.SelectAsyncServer`
(`bandwidthPerTick`, `maxBucket`, `bucket`); each is `None` when no bandwidth
limit is in force. -/
structure BWState where
  bandwidthPerTick : Option Int
  maxBucket : Option Int
  bucket : Option Int
deriving DecidableEq, Repr

/-- `SelectAsyncServer.TICK_INTERVAL` (1.0 seconds, here the integer 1). -/
def TICK_INTERVAL : Int := 1

/-- Embeds `SelectAsyncServer.setBandwidth(n, maxBucket)`:
`bandwidthPerTick = int(n * TICK_INTERVAL)`, and `maxBucket` defaults to five
ticks' worth; `n = None` removes the limit. -/
def setBandwidth (s : BWState) (n : Option Int) (maxBucket : Option Int) : BWState :=
  match n with
  | none => { s with bandwidthPerTick := none, maxBucket := none }
  | some n =>
    let bwpt := n * TICK_INTERVAL
    { s with bandwidthPerTick := some bwpt,
             maxBucket := some (maxBucket.getD (bwpt * 5)) }

/-- Embeds `SelectAsyncServer.tick()`: with a limit in force,
`bucket = (bucket or 0) + bandwidthPerTick`, clipped to `maxBucket`.
(`maxBucket = None` with a numeric `bandwidthPerTick` is unreachable through
`setBandwidth`; in Python 2 the comparison `bucket > None` is then true and
`bucket` becomes `None`, which the model mirrors.) -/
def tick (s : BWState) : BWState :=
  match s.bandwidthPerTick with
  | none => { s with bucket := none }
  | some bwpt =>
    let bucket := s.bucket.getD 0 + bwpt
    match s.maxBucket with
    | none => { s with bucket := none }
    | some mb => { s with bucket := some (if bucket > mb then mb else bucket) }

/-- How a call of `SelectAsyncServer.process(timeout)` begins: either it
sleeps for the timeout and returns without touching any socket, or it goes on
to `select` and per-connection I/O. -/
inductive ProcessAction where
  | sleepReturn
  | doIO
deriving DecidableEq, Repr

/-- Embeds the entry guards of `SelectAsyncServer.process(timeout)` (source
lines 90-105): with no registered file descriptors it sleeps and returns; with
a bucket that is `≤ 0` it sleeps and returns; otherwise it proceeds to the
`select` call and the per-connection `process` calls. -/
def processEntry (s : BWState) (anyFds : Bool) : ProcessAction :=
  if !anyFds then ProcessAction.sleepReturn
  else match s.bucket with
    | none => ProcessAction.doIO
    | some b => if b ≤ 0 then ProcessAction.sleepReturn else ProcessAction.doIO

/-- A degenerate hash for concrete instantiations: every digest is 20 zero
bytes. -/
def toySha1 : List Nat → List Nat := fun _ => List.replicate 20 0

/-- A degenerate, involutive wide-block cipher for concrete instantiations:
XOR every byte with the first key byte. -/
def toyL (k x : List Nat) : List Nat := x.map (fun b => b ^^^ k.headD 0)

/-- A concrete `Crypto` instance built from the degenerate primitives, used to
instantiate hypotheses at concrete inputs. -/
def toyCrypto : Crypto :=
  { sha1 := toySha1, lionessE := toyL, lionessD := toyL,
    lionessKeys := fun s _ => s, ksGet := fun s _ => s,
    ctr := fun _ d _ => d, prngK := fun _ n => List.replicate n 0,
    prngSecret := fun _ i => List.replicate SECRET_LEN (2 * i + 2) }

theorem toyL_toyL (k x : List Nat) : toyL k (toyL k x) = x := by
  simp [toyL, List.map_map, Function.comp_def, Nat.xor_cancel_right]

theorem toyL_length (k x : List Nat) : (toyL k x).length = x.length := by
  simp [toyL]

theorem toyL_replicate (k : List Nat) (n a : Nat) :
    toyL k (List.replicate n a) = List.replicate n (a ^^^ k.headD 0) := by
  simp [toyL, List.map_replicate]

instance {ε α : Type} [DecidableEq ε] [DecidableEq α] : DecidableEq (Except ε α) :=
  fun a b =>
    match a, b with
    | Except.ok x, Except.ok y =>
      if h : x = y then isTrue (by rw [h]) else isFalse (by simp [h])
    | Except.error x, Except.error y =>
      if h : x = y then isTrue (by rw [h]) else isFalse (by simp [h])
    | Except.ok _, Except.error _ => isFalse (by simp)
    | Except.error _, Except.ok _ => isFalse (by simp)

theorem foldl_lionessD_foldl_lionessE_reverse (C : Crypto)
    (hDE : ∀ k y, C.lionessD k (C.lionessE k y) = y) :
    ∀ (l : List (List Nat)) (x : List Nat),
      l.foldl (fun q s => C.lionessD (C.lionessKeys s Mode.payloadEncrypt) q)
        ((l.reverse).foldl
          (fun q s => C.lionessE (C.lionessKeys s Mode.payloadEncrypt) q) x) = x
  | [], x => rfl
  | s :: t, x => by
    have h1 : ((s :: t).reverse).foldl
        (fun q s => C.lionessE (C.lionessKeys s Mode.payloadEncrypt) q) x
        = C.lionessE (C.lionessKeys s Mode.payloadEncrypt)
          ((t.reverse).foldl
            (fun q s => C.lionessE (C.lionessKeys s Mode.payloadEncrypt) q) x) := by
      rw [List.reverse_cons, List.foldl_append]
      rfl
    rw [h1, List.foldl_cons, hDE]
    exact foldl_lionessD_foldl_lionessE_reverse C hDE t x

theorem foldl_reverse_eq_lionessDecChain (C : Crypto) (m : List (List Nat))
    (y : List Nat) :
    (m.reverse).foldl (fun q s => C.lionessD (C.lionessKeys s Mode.payloadEncrypt) q) y
      = lionessDecChain C m y := by
  rw [List.foldl_reverse]
  rfl

theorem lionessDecChain_concat (C : Crypto) (m : List (List Nat))
    (g : List Nat) (p : List Nat) :
    lionessDecChain C (m ++ [g]) p
      = lionessDecChain C m (C.lionessD (C.lionessKeys g Mode.payloadEncrypt) p) := by
  unfold lionessDecChain
  rw [List.foldr_append]
  rfl

theorem lionessDecChain_length (C : Crypto)
    (hlD : ∀ k x, (C.lionessD k x).length = x.length) :
    ∀ (l : List (List Nat)) (p : List Nat),
      (lionessDecChain C l p).length = p.length
  | [], _ => rfl
  | s :: t, p => by
    unfold lionessDecChain
    rw [List.foldr_cons]
    rw [hlD]
    exact lionessDecChain_length C hlD t p

theorem decodeReplyPayload_cons (C : Crypto) (check : Bool) (p s : List Nat)
    (rest : List (List Nat)) :
    decodeReplyPayload C check p (s :: rest)
      = (if check && checkPayload C
            (C.lionessE (C.lionessKeys s Mode.payloadEncrypt) p)
         then Except.ok (parsePayload
            (C.lionessE (C.lionessKeys s Mode.payloadEncrypt) p))
         else decodeReplyPayload C check
            (C.lionessE (C.lionessKeys s Mode.payloadEncrypt) p) rest) := rfl

theorem decodeReplyPayload_chain_ok (C : Crypto)
    (hED : ∀ k x, C.lionessE k (C.lionessD k x) = x) :
    ∀ (l extra : List (List Nat)) (p : List Nat),
      l ≠ [] →
      checkPayload C p = true →
      (∀ j, 1 ≤ j → j < l.length →
        checkPayload C (lionessDecChain C (l.drop j) p) = false) →
      decodeReplyPayload C true (lionessDecChain C l p) (l ++ extra)
        = Except.ok (parsePayload p)
  | [], _, _, hne, _, _ => absurd rfl hne
  | s :: t, extra, p, _, hchk, hmid => by
    have hchain : lionessDecChain C (s :: t) p
        = C.lionessD (C.lionessKeys s Mode.payloadEncrypt) (lionessDecChain C t p) := rfl
    rw [hchain, List.cons_append, decodeReplyPayload_cons]
    rw [hED]
    cases ht : t with
    | nil =>
      have hc : lionessDecChain C [] p = p := rfl
      rw [hc]
      simp [hchk]
    | cons a b =>
      have hne2 : checkPayload C (lionessDecChain C t p) = false := by
        have := hmid 1 (le_refl 1) (by simp [ht])
        simpa using this
      rw [ht] at hne2
      rw [hne2]
      simp only [Bool.and_false, Bool.false_eq_true, if_false]
      rw [← ht]
      exact decodeReplyPayload_chain_ok C hED t extra p (by simp [ht]) hchk
        (fun j h1 h2 => by
          have := hmid (j + 1) (by omega) (by simp; omega)
          simpa using this)

theorem buildReplyBlockSecrets_eq (C : Crypto) (seed userKey : List Nat) (n : Nat) :
    buildReplyBlockSecrets C seed userKey n
      = (List.range n).map
          (C.prngSecret ((C.sha1 (seed ++ userKey ++ generateLabel)).take 16))
        ++ [C.prngSecret ((C.sha1 (seed ++ userKey ++ generateLabel)).take 16) n] := by
  unfold buildReplyBlockSecrets
  rw [List.range_succ, List.map_append]
  rfl

theorem buildReplyBlock_headerSecrets (C : Crypto) (seed userKey : List Nat) (n : Nat) :
    (buildReplyBlock C seed userKey n).headerSecrets
      = ((List.range n).map
          (C.prngSecret ((C.sha1 (seed ++ userKey ++ generateLabel)).take 16))).reverse := by
  show ((buildReplyBlockSecrets C seed userKey n).dropLast).reverse = _
  rw [buildReplyBlockSecrets_eq, List.dropLast_concat]

theorem buildReplyBlock_encryptionKey (C : Crypto) (seed userKey : List Nat) (n : Nat) :
    (buildReplyBlock C seed userKey n).encryptionKey
      = C.prngSecret ((C.sha1 (seed ++ userKey ++ generateLabel)).take 16) n := by
  show (buildReplyBlockSecrets C seed userKey n).getLast?.getD [] = _
  rw [buildReplyBlockSecrets_eq, List.getLast?_concat]
  rfl

theorem mixTransit_buildReply_eq_chain (C : Crypto) (seed userKey P kswap : List Nat)
    (secrets1 : List (List Nat)) (n : Nat)
    (hDE : ∀ k x, C.lionessD k (C.lionessE k x) = x) :
    mixTransitReplyPayload C secrets1 kswap (buildReplyBlock C seed userKey n)
      (buildReplyPacketPayload C (buildReplyBlock C seed userKey n) secrets1 kswap P)
      = lionessDecChain C (buildReplyBlockSecrets C seed userKey n) P := by
  unfold mixTransitReplyPayload buildReplyPacketPayload constructMessagePayload
  dsimp only
  rw [foldl_lionessD_foldl_lionessE_reverse C hDE, hDE]
  rw [buildReplyBlock_headerSecrets, buildReplyBlock_encryptionKey]
  rw [foldl_reverse_eq_lionessDecChain, ← lionessDecChain_concat,
    ← buildReplyBlockSecrets_eq]

/-- C1 (amended): for every 28672-byte payload P that carries a valid
checksum, every SURB built by `buildReplyBlock` over a reply path of at most
16 hops with user key K, and an ideal LIONESS cipher (encrypt and decrypt
mutually inverse and length-preserving, with no intermediate decryption stage
of the chain accidentally passing the checksum test), decoding the payload of
the reply packet built by `buildReplyPacket` - after the mixnet's per-hop
transform carries it to the recipient - with tag S.tag and user keys
[("", K)] recovers exactly the parse of P. -/
theorem c1_reply_roundtrip_amended (C : Crypto) (seed userKey P kswap : List Nat)
    (secrets1 : List (List Nat)) (n : Nat)
    (hn : n ≤ 16)
    (hED : ∀ k x, C.lionessE k (C.lionessD k x) = x)
    (hDE : ∀ k x, C.lionessD k (C.lionessE k x) = x)
    (hlD : ∀ k x, (C.lionessD k x).length = x.length)
    (hseed : (C.sha1 (seed ++ userKey ++ validateLabel)).getLast?.getD 1 = 0)
    (htag : seed.length = TAG_LEN)
    (hP : P.length = PAYLOAD_LEN)
    (hchk : checkPayload C P = true)
    (hR : checkPayload C
      (lionessDecChain C (buildReplyBlockSecrets C seed userKey n) P) = false)
    (hmid : ∀ j, 1 ≤ j → j ≤ n →
      checkPayload C
        (lionessDecChain C ((buildReplyBlockSecrets C seed userKey n).drop j) P)
        = false) :
    decodePayload C
      (mixTransitReplyPayload C secrets1 kswap (buildReplyBlock C seed userKey n)
        (buildReplyPacketPayload C (buildReplyBlock C seed userKey n)
          secrets1 kswap P))
      ((buildReplyBlock C seed userKey n).tag) none [("", userKey)]
      = Except.ok (some (parsePayload P)) := by
  have hrb_tag : (buildReplyBlock C seed userKey n).tag = seed := rfl
  rw [hrb_tag, mixTransit_buildReply_eq_chain C seed userKey P kswap secrets1 n hDE]
  have hne : seed ≠ [] := by
    intro h
    rw [h] at htag
    simp [TAG_LEN] at htag
  have hsd : decodeStatelessReplyPayload C
      (lionessDecChain C (buildReplyBlockSecrets C seed userKey n) P) seed userKey
      = Except.ok (parsePayload P) := by
    unfold decodeStatelessReplyPayload
    have h17 : (17 : Nat) = (n + 1) + (16 - n) := by omega
    rw [h17, List.range_add, List.map_append]
    have hfirst : (List.range (n + 1)).map
        (C.prngSecret ((C.sha1 (seed ++ userKey ++ generateLabel)).take 16))
        = buildReplyBlockSecrets C seed userKey n := rfl
    rw [hfirst]
    apply decodeReplyPayload_chain_ok C hED
    · simp [buildReplyBlockSecrets]
    · exact hchk
    · intro j h1 h2
      apply hmid j h1
      have : (buildReplyBlockSecrets C seed userKey n).length = n + 1 := by
        simp [buildReplyBlockSecrets]
      omega
  unfold decodePayload
  rw [if_neg (by
    rw [lionessDecChain_length C hlD, hP]
    simp)]
  rw [if_neg (by
    rw [htag]
    simp)]
  rw [if_neg (by rw [hR]; simp)]
  rw [if_neg (by simp [hne])]
  unfold decodePayloadUserKeys
  rw [if_pos hseed, hsd]

theorem c1_reply_roundtrip_amended_witness :
    checkPayload toyCrypto (List.replicate 28672 0) = true ∧
    decodePayload toyCrypto
      (mixTransitReplyPayload toyCrypto [[9]] [5]
        (buildReplyBlock toyCrypto (List.replicate 20 0) [7] 1)
        (buildReplyPacketPayload toyCrypto
          (buildReplyBlock toyCrypto (List.replicate 20 0) [7] 1)
          [[9]] [5] (List.replicate 28672 0)))
      ((buildReplyBlock toyCrypto (List.replicate 20 0) [7] 1).tag) none [("", [7])]
      = Except.ok (some (parsePayload (List.replicate 28672 0))) := by
  refine ⟨by decide, ?_⟩
  apply c1_reply_roundtrip_amended toyCrypto (List.replicate 20 0) [7]
    (List.replicate 28672 0) [5] [[9]] 1
  · decide
  · exact fun k x => toyL_toyL k x
  · exact fun k x => toyL_toyL k x
  · exact fun k x => toyL_length k x
  · decide
  · decide
  · rw [List.length_replicate]; rfl
  · decide
  · decide
  · intro j h1 h2
    have hj : j = 1 := by omega
    subst hj
    decide

/-- C1 fails as stated for long reply paths: a 17-hop reply path still fits a
2048-byte header (third conjunct: 16 intermediate IPv4 routing infos of 26
bytes plus a tagged exit fit `_getRouting`), but `buildReplyBlock` then draws
18 secrets while `_decodeStatelessReplyPayload` regenerates only 17, so the
decode falls through every user key and `decodePayload` returns `None` instead
of the payload - even though the payload carries a valid checksum (first
conjunct). -/
theorem c1_reply_roundtrip_counterexample :
    checkPayload toyCrypto (List.replicate 28672 0) = true ∧
    decodePayload toyCrypto
      (mixTransitReplyPayload toyCrypto [[9]] [5]
        (buildReplyBlock toyCrypto (List.replicate 20 0) [7] 17)
        (buildReplyPacketPayload toyCrypto
          (buildReplyBlock toyCrypto (List.replicate 20 0) [7] 17)
          [[9]] [5] (List.replicate 28672 0)))
      ((buildReplyBlock toyCrypto (List.replicate 20 0) [7] 17).tag) none [("", [7])]
      = Except.ok none ∧
    (getRouting (List.replicate 16 (0, List.replicate 26 0)) 256
      (List.replicate 20 0)).isOk = true := by
  refine ⟨by decide, ?_, by decide⟩
  have hrb_tag : (buildReplyBlock toyCrypto (List.replicate 20 0) [7] 17).tag
      = List.replicate 20 0 := rfl
  rw [hrb_tag, mixTransit_buildReply_eq_chain toyCrypto (List.replicate 20 0) [7]
    (List.replicate 28672 0) [5] [[9]] 17 (fun k x => toyL_toyL k x)]
  unfold decodePayload
  rw [if_neg (by
    rw [lionessDecChain_length toyCrypto (fun k x => toyL_length k x),
      List.length_replicate]
    decide)]
  rw [if_neg (by decide)]
  rw [if_neg (by
    have : checkPayload toyCrypto
        (lionessDecChain toyCrypto
          (buildReplyBlockSecrets toyCrypto (List.replicate 20 0) [7] 17)
          (List.replicate 28672 0)) = false := by decide
    rw [this]
    decide)]
  rw [if_neg (by decide)]
  have hloop : decodePayloadUserKeys toyCrypto
      (lionessDecChain toyCrypto
        (buildReplyBlockSecrets toyCrypto (List.replicate 20 0) [7] 17)
        (List.replicate 28672 0))
      (List.replicate 20 0) [("", [7])] = none := by decide
  rw [hloop]

/-- C10: `decodePayload` raises immediately, rather than returning `None`,
whenever the payload is not exactly 28672 bytes or the tag length is neither 0
nor 20; no decoding step is attempted on such inputs. -/
theorem c10_decodePayload_length_guards (C : Crypto) (payload tag : List Nat)
    (key : Option RSAKeyM) (userKeys : List (String × List Nat)) :
    (payload.length ≠ PAYLOAD_LEN →
      decodePayload C payload tag key userKeys
        = Except.error MixErr.wrongPayloadLen) ∧
    (payload.length = PAYLOAD_LEN → ¬(tag.length = 0 ∨ tag.length = TAG_LEN) →
      decodePayload C payload tag key userKeys
        = Except.error MixErr.wrongTagLen) := by
  constructor
  · intro h
    unfold decodePayload
    rw [if_pos h]
  · intro h1 h2
    unfold decodePayload
    rw [if_neg (fun hn => hn h1), if_pos h2]

theorem c10_decodePayload_length_guards_witness :
    ([] : List Nat).length ≠ PAYLOAD_LEN ∧
    decodePayload toyCrypto [] [] none [] = Except.error MixErr.wrongPayloadLen ∧
    decodePayload toyCrypto (List.replicate 28672 0) [1, 2] none []
      = Except.error MixErr.wrongTagLen := by
  refine ⟨by decide, ?_, ?_⟩
  · exact (c10_decodePayload_length_guards toyCrypto [] [] none []).1 (by decide)
  · exact (c10_decodePayload_length_guards toyCrypto (List.replicate 28672 0)
      [1, 2] none []).2 (by rw [List.length_replicate]; rfl) (by decide)

theorem decodePayloadUserKeys_none_of_fail (C : Crypto) (payload tag : List Nat) :
    ∀ userKeys : List (String × List Nat),
      (∀ p ∈ userKeys,
        (C.sha1 (tag ++ p.2 ++ validateLabel)).getLast?.getD 1 ≠ 0 ∨
        ∃ e, decodeStatelessReplyPayload C payload tag p.2 = Except.error e) →
      decodePayloadUserKeys C payload tag userKeys = none
  | [], _ => rfl
  | (nm, k) :: rest, hfail => by
    unfold decodePayloadUserKeys
    rcases hfail (nm, k) (List.mem_cons_self _ _) with hv | ⟨e, he⟩
    · rw [if_neg hv]
      exact decodePayloadUserKeys_none_of_fail C payload tag rest
        (fun p hp => hfail p (List.mem_cons_of_mem _ hp))
    · by_cases hv : (C.sha1 (tag ++ k ++ validateLabel)).getLast?.getD 1 = 0
      · rw [if_pos hv, he]
        exact decodePayloadUserKeys_none_of_fail C payload tag rest
          (fun p hp => hfail p (List.mem_cons_of_mem _ hp))
      · rw [if_neg hv]
        exact decodePayloadUserKeys_none_of_fail C payload tag rest
          (fun p hp => hfail p (List.mem_cons_of_mem _ hp))

theorem decodePayload_to_key (C : Crypto) (payload tag : List Nat)
    (key : Option RSAKeyM) (userKeys : List (String × List Nat))
    (hlP : payload.length = PAYLOAD_LEN)
    (hlT : tag.length = TAG_LEN)
    (hchk : checkPayload C payload = false)
    (hloop : decodePayloadUserKeys C payload tag userKeys = none) :
    decodePayload C payload tag key userKeys
      = match key with
        | none => Except.ok none
        | some k => decodeEncryptedForwardPayload C payload tag k := by
  have hne : tag ≠ [] := by
    intro h
    rw [h] at hlT
    simp [TAG_LEN] at hlT
  unfold decodePayload
  rw [if_neg (fun hn => hn hlP)]
  rw [if_neg (by rw [hlT]; simp)]
  rw [if_neg (by rw [hchk]; simp)]
  rw [if_neg (by simp [hne])]
  rw [hloop]

/-- C4: with a payload that fails the checksum, a tag no user key validates,
and an RSA key: when the RSA decryption of the first `modulus_bytes` of
`tag ++ payload` fails, `decodePayload` returns `None` rather than raising;
when it succeeds but the reassembled payload fails `check_payload`, a
corrupt-payload error is raised; when the checksum verifies, the parsed
payload is returned. -/
theorem c4_decodePayload_rsa_branch (C : Crypto) (payload tag : List Nat)
    (key : RSAKeyM) (userKeys : List (String × List Nat))
    (hlP : payload.length = PAYLOAD_LEN)
    (hlT : tag.length = TAG_LEN)
    (hchk : checkPayload C payload = false)
    (hval : ∀ p ∈ userKeys,
      (C.sha1 (tag ++ p.2 ++ validateLabel)).getLast?.getD 1 ≠ 0) :
    (key.dec ((tag ++ payload).take key.modBytes) = none →
      decodePayload C payload tag (some key) userKeys = Except.ok none) ∧
    (∀ rsaPart, key.dec ((tag ++ payload).take key.modBytes) = some rsaPart →
      checkPayload C (rsaPart.drop SECRET_LEN
        ++ C.lionessD (C.lionessKeys (rsaPart.take SECRET_LEN) Mode.endToEnd)
          ((tag ++ payload).drop key.modBytes)) = false →
      decodePayload C payload tag (some key) userKeys
        = Except.error MixErr.corruptEncFwd) ∧
    (∀ rsaPart, key.dec ((tag ++ payload).take key.modBytes) = some rsaPart →
      checkPayload C (rsaPart.drop SECRET_LEN
        ++ C.lionessD (C.lionessKeys (rsaPart.take SECRET_LEN) Mode.endToEnd)
          ((tag ++ payload).drop key.modBytes)) = true →
      decodePayload C payload tag (some key) userKeys
        = Except.ok (some (parsePayload (rsaPart.drop SECRET_LEN
            ++ C.lionessD (C.lionessKeys (rsaPart.take SECRET_LEN) Mode.endToEnd)
              ((tag ++ payload).drop key.modBytes))))) := by
  have hloop : decodePayloadUserKeys C payload tag userKeys = none :=
    decodePayloadUserKeys_none_of_fail C payload tag userKeys
      (fun p hp => Or.inl (hval p hp))
  have hbase := decodePayload_to_key C payload tag (some key) userKeys
    hlP hlT hchk hloop
  refine ⟨?_, ?_, ?_⟩
  · intro hdec
    rw [hbase]
    show decodeEncryptedForwardPayload C payload tag key = Except.ok none
    unfold decodeEncryptedForwardPayload
    dsimp only
    rw [hdec]
  · intro rsaPart hdec hbad
    rw [hbase]
    show decodeEncryptedForwardPayload C payload tag key = _
    unfold decodeEncryptedForwardPayload
    dsimp only
    rw [hdec]
    dsimp only
    rw [hbad]
    simp
  · intro rsaPart hdec hgood
    rw [hbase]
    show decodeEncryptedForwardPayload C payload tag key = _
    unfold decodeEncryptedForwardPayload
    dsimp only
    rw [hdec]
    dsimp only
    rw [hgood]
    simp

/-- A degenerate RSA private key whose decryption always fails (as when none
of the ciphertext prefixes decrypt under this key). -/
def toyRSADecFail : RSAKeyM := { modBytes := 256, dec := fun _ => none }

theorem c4_decodePayload_rsa_branch_witness :
    checkPayload toyCrypto (List.replicate 28672 1) = false ∧
    decodePayload toyCrypto (List.replicate 28672 1) (List.replicate 20 3)
      (some toyRSADecFail) [] = Except.ok none := by
  refine ⟨by decide, ?_⟩
  exact (c4_decodePayload_rsa_branch toyCrypto (List.replicate 28672 1)
    (List.replicate 20 3) toyRSADecFail []
    (by rw [List.length_replicate]; rfl) (by decide) (by decide)
    (by intro p hp; simp at hp)).1 rfl

/-- C8: a user key that passes the validate-byte test but whose 17-step
stateless reply decode raises is swallowed: `decodePayload` continues with the
remaining user keys exactly as if the failing key were absent, and with no RSA
key it returns `None` when every user key fails - the SURB decode error never
reaches the caller. -/
theorem c8_decodePayload_surb_errors_swallowed (C : Crypto) (payload tag : List Nat)
    (key : Option RSAKeyM) (nm : String) (k1 : List Nat)
    (rest : List (String × List Nat))
    (hval : (C.sha1 (tag ++ k1 ++ validateLabel)).getLast?.getD 1 = 0)
    (herr : ∃ e, decodeStatelessReplyPayload C payload tag k1 = Except.error e) :
    (decodePayload C payload tag key ((nm, k1) :: rest)
      = decodePayload C payload tag key rest) ∧
    (payload.length = PAYLOAD_LEN → tag.length = TAG_LEN →
      checkPayload C payload = false →
      ∀ uks : List (String × List Nat),
        (∀ p ∈ uks,
          (C.sha1 (tag ++ p.2 ++ validateLabel)).getLast?.getD 1 ≠ 0 ∨
          ∃ e, decodeStatelessReplyPayload C payload tag p.2 = Except.error e) →
        decodePayload C payload tag none uks = Except.ok none) := by
  obtain ⟨e, he⟩ := herr
  have hloop : decodePayloadUserKeys C payload tag ((nm, k1) :: rest)
      = decodePayloadUserKeys C payload tag rest := by
    rw [show decodePayloadUserKeys C payload tag ((nm, k1) :: rest)
      = (if (C.sha1 (tag ++ k1 ++ validateLabel)).getLast?.getD 1 = 0 then
          match decodeStatelessReplyPayload C payload tag k1 with
          | Except.ok p => some p
          | Except.error _ => decodePayloadUserKeys C payload tag rest
        else decodePayloadUserKeys C payload tag rest) from rfl]
    rw [if_pos hval, he]
  constructor
  · unfold decodePayload
    rw [hloop]
  · intro hlP hlT hchk uks hfail
    rw [decodePayload_to_key C payload tag none uks hlP hlT hchk
      (decodePayloadUserKeys_none_of_fail C payload tag uks hfail)]

theorem c8_decodePayload_surb_errors_swallowed_witness :
    (toyCrypto.sha1 (List.replicate 20 0 ++ [3] ++ validateLabel)).getLast?.getD 1
      = 0 ∧
    decodePayload toyCrypto (List.replicate 28672 1) (List.replicate 20 0)
      none [("", [3])]
      = decodePayload toyCrypto (List.replicate 28672 1) (List.replicate 20 0)
        none [] ∧
    decodePayload toyCrypto (List.replicate 28672 1) (List.replicate 20 0)
      none [("", [3])] = Except.ok none := by
  have h := c8_decodePayload_surb_errors_swallowed toyCrypto
    (List.replicate 28672 1) (List.replicate 20 0) none "" [3] []
    (by decide) ⟨MixErr.corruptReply, by decide⟩
  refine ⟨by decide, h.1, ?_⟩
  exact h.2 (by rw [List.length_replicate]; rfl) (by decide) (by decide)
    [("", [3])]
    (fun p hp => by
      have hp2 : p = ("", [3]) := by simpa using hp
      subst hp2
      exact Or.inr ⟨MixErr.corruptReply, by decide⟩)

/-- C5: header construction fails exactly when the summed subheader sizes
(`len(ri) + OAEP_OVERHEAD + MIN_SUBHEADER_LEN` each) exceed `HEADER_LEN`, or
when the padding plus the last size cannot fill one RSA block; a routing whose
sizes total exactly `HEADER_LEN` (with adequate space for the last subheader)
succeeds, and one byte more fails. -/
theorem c5_getRouting_size_conditions (hopRoutes : List (Nat × List Nat))
    (exitType : Nat) (exitInfo : List Nat) (b : Nat) :
    ((∃ e, getRouting hopRoutes exitType exitInfo = Except.error e) ↔
      (HEADER_LEN <
        (((hopRoutes ++ [(exitType, exitInfo)]).map
          (fun r => r.2.length + OAEP_OVERHEAD + MIN_SUBHEADER_LEN)).sum) ∨
       (HEADER_LEN -
          (((hopRoutes ++ [(exitType, exitInfo)]).map
            (fun r => r.2.length + OAEP_OVERHEAD + MIN_SUBHEADER_LEN)).sum))
         + (((hopRoutes ++ [(exitType, exitInfo)]).map
            (fun r => r.2.length + OAEP_OVERHEAD + MIN_SUBHEADER_LEN)).getLast?.getD 0)
         < ENC_SUBHEADER_LEN)) ∧
    ((((hopRoutes ++ [(exitType, exitInfo)]).map
        (fun r => r.2.length + OAEP_OVERHEAD + MIN_SUBHEADER_LEN)).sum = HEADER_LEN) →
      ENC_SUBHEADER_LEN ≤
        (((hopRoutes ++ [(exitType, exitInfo)]).map
          (fun r => r.2.length + OAEP_OVERHEAD + MIN_SUBHEADER_LEN)).getLast?.getD 0) →
      ∃ r, getRouting hopRoutes exitType exitInfo = Except.ok r) ∧
    ((((hopRoutes ++ [(exitType, exitInfo)]).map
        (fun r => r.2.length + OAEP_OVERHEAD + MIN_SUBHEADER_LEN)).sum = HEADER_LEN) →
      getRouting hopRoutes exitType (b :: exitInfo)
        = Except.error MixErr.headerTooBig) := by
  have hfold : ∀ (l : List Nat), l.foldl (· + ·) 0 = l.sum :=
    fun l => (List.sum_eq_foldl).symm
  refine ⟨?_, ?_, ?_⟩
  · unfold getRouting
    dsimp only
    rw [hfold]
    by_cases h1 : HEADER_LEN <
        ((hopRoutes ++ [(exitType, exitInfo)]).map
          (fun r => r.2.length + OAEP_OVERHEAD + MIN_SUBHEADER_LEN)).sum
    · rw [if_pos h1]
      exact ⟨fun _ => Or.inl h1, fun _ => ⟨MixErr.headerTooBig, rfl⟩⟩
    · rw [if_neg h1]
      by_cases h2 : (HEADER_LEN -
          ((hopRoutes ++ [(exitType, exitInfo)]).map
            (fun r => r.2.length + OAEP_OVERHEAD + MIN_SUBHEADER_LEN)).sum)
          + (((hopRoutes ++ [(exitType, exitInfo)]).map
            (fun r => r.2.length + OAEP_OVERHEAD + MIN_SUBHEADER_LEN)).getLast?.getD 0)
          < ENC_SUBHEADER_LEN
      · rw [if_pos h2]
        exact ⟨fun _ => Or.inr h2, fun _ => ⟨MixErr.headerTooBig, rfl⟩⟩
      · rw [if_neg h2]
        constructor
        · rintro ⟨e, he⟩
          exact absurd he (by simp)
        · rintro (h | h)
          · exact absurd h h1
          · exact absurd h h2
  · intro hsum hlast
    unfold getRouting
    dsimp only
    rw [hfold, hsum]
    rw [if_neg (by omega)]
    rw [if_neg (by omega)]
    exact ⟨_, rfl⟩
  · intro hsum
    unfold getRouting
    dsimp only
    rw [hfold]
    have hsum2 : ((hopRoutes ++ [(exitType, b :: exitInfo)]).map
        (fun r => r.2.length + OAEP_OVERHEAD + MIN_SUBHEADER_LEN)).sum
        = ((hopRoutes ++ [(exitType, exitInfo)]).map
          (fun r => r.2.length + OAEP_OVERHEAD + MIN_SUBHEADER_LEN)).sum + 1 := by
      rw [List.map_append, List.map_append, List.sum_append, List.sum_append]
      simp [List.length_cons]
      omega
    rw [hsum2, hsum]
    rw [if_pos (by decide)]

set_option maxRecDepth 20000 in
theorem c5_getRouting_size_conditions_witness :
    (((([(0, List.replicate 1708 0)] : List (Nat × List Nat))
        ++ [(256, List.replicate 172 0)]).map
        (fun r : Nat × List Nat =>
          r.2.length + OAEP_OVERHEAD + MIN_SUBHEADER_LEN)).sum
      = HEADER_LEN) ∧
    (∃ r, getRouting [(0, List.replicate 1708 0)] 256 (List.replicate 172 0)
      = Except.ok r) ∧
    getRouting [(0, List.replicate 1708 0)] 256 (0 :: List.replicate 172 0)
      = Except.error MixErr.headerTooBig := by
  have hsum : ((([(0, List.replicate 1708 0)] : List (Nat × List Nat))
      ++ [(256, List.replicate 172 0)]).map
      (fun r : Nat × List Nat =>
        r.2.length + OAEP_OVERHEAD + MIN_SUBHEADER_LEN)).sum
      = HEADER_LEN := by decide
  have h := c5_getRouting_size_conditions [(0, List.replicate 1708 0)] 256
    (List.replicate 172 0) 0
  exact ⟨hsum, h.2.1 hsum (by decide), h.2.2 hsum⟩

theorem headD_append_of_ne_nil (l l' : List Nat) (d : Nat) (h : l ≠ []) :
    (l ++ l').headD d = l.headD d := by
  cases l with
  | nil => exact absurd rfl h
  | cons a t => rfl

/-- C3: every RSA-OAEP ciphertext produced during packet construction - the
session-key block of `buildEncryptedForwardPacket` and the encrypted subheader
produced at every hop of `_buildHeader`'s loop - has the high bit of its
leading byte clear, because `pk_encrypt` retries with fresh OAEP randomness
until that holds. -/
theorem c3_rsa_high_bit_clear (C : Crypto) (k : PacketKey)
    (sessionKey payload0 : List Nat) (entries : List HeaderEntry)
    (init : List Nat) (i : Nat) :
    (((buildEncryptedForwardEncrypted k sessionKey payload0).headD 0)
      &&& 128 = 0) ∧
    (i < entries.length →
      ((buildHeaderLoop C (entries.drop i) init).headD 0) &&& 128 = 0) := by
  constructor
  · exact pkEncrypt_clear k _
  · intro hi
    cases hd : entries.drop i with
    | nil =>
      have hlen : (entries.drop i).length = entries.length - i :=
        List.length_drop i entries
      rw [hd] at hlen
      simp at hlen
      omega
    | cons e rest =>
      show (buildHeaderStep C e (buildHeaderLoop C rest init)).headD 0 &&& 128 = 0
      unfold buildHeaderStep
      dsimp only
      rw [headD_append_of_ne_nil _ _ _ (pkEncrypt_ne_nil _ _)]
      exact pkEncrypt_clear _ _

/-- A degenerate RSA public key for concrete instantiations: every encryption
attempt returns 256 zero bytes (high bit clear on the first draw). -/
def toyPacketKey : PacketKey :=
  { modBytes := 256, enc := fun _ _ => List.replicate 256 0,
    hpos := by decide,
    hlen := fun _ _ => by rw [List.length_replicate],
    hex := fun _ => ⟨0, by
      show ((List.replicate 256 0).headD 0) &&& 128 = 0
      decide⟩ }

theorem c3_rsa_high_bit_clear_witness :
    (0 : Nat) < ([⟨toyPacketKey, [1], 0, [2], [3]⟩] : List HeaderEntry).length ∧
    ((buildHeaderLoop toyCrypto
      (([⟨toyPacketKey, [1], 0, [2], [3]⟩] : List HeaderEntry).drop 0)
      []).headD 0) &&& 128 = 0 ∧
    ((buildEncryptedForwardEncrypted toyPacketKey [4] [5]).headD 0)
      &&& 128 = 0 := by
  have h := c3_rsa_high_bit_clear toyCrypto toyPacketKey [4] [5]
    [⟨toyPacketKey, [1], 0, [2], [3]⟩] [] 0
  exact ⟨by decide, h.2 (by decide), h.1⟩

/-- C7: for every message and overhead in {0, ENC_FWD_OVERHEAD},
`encodeMessage` returns exactly one payload when the compressed length plus
overhead plus 22 fits in `PAYLOAD_LEN`, at least two payloads when the
compressed length is one byte more, and `getNPacketsToEncode` always returns
exactly the number of payloads `encodeMessage` produces. -/
theorem c7_encodeMessage_packet_count (C : Crypto)
    (compress : List Nat → List Nat) (message : List Nat) (overhead : Nat)
    (fragPre : List Nat) (padBytes : Nat → List Nat) (messageid : List Nat)
    (hov : overhead = 0 ∨ overhead = ENC_FWD_OVERHEAD) :
    ((compress message).length + overhead + SINGLETON_PAYLOAD_OVERHEAD
        ≤ PAYLOAD_LEN →
      (encodeMessage C compress message overhead fragPre padBytes
        messageid).length = 1) ∧
    ((compress message).length + overhead + SINGLETON_PAYLOAD_OVERHEAD
        = PAYLOAD_LEN + 1 →
      2 ≤ (encodeMessage C compress message overhead fragPre padBytes
        messageid).length) ∧
    (getNPacketsToEncode compress message overhead fragPre
      = (encodeMessage C compress message overhead fragPre padBytes
          messageid).length) := by
  have hcond : (0 ≤ (PAYLOAD_LEN : Int) - SINGLETON_PAYLOAD_OVERHEAD - overhead
      - (compress message).length) ↔
      ((compress message).length + overhead + SINGLETON_PAYLOAD_OVERHEAD
        ≤ PAYLOAD_LEN) := by
    rw [show PAYLOAD_LEN = 28672 from rfl,
      show SINGLETON_PAYLOAD_OVERHEAD = 22 from rfl]
    omega
  have hfraglen : (encodeMessage C compress message overhead fragPre padBytes
      messageid).length
      = (if 0 ≤ (PAYLOAD_LEN : Int) - SINGLETON_PAYLOAD_OVERHEAD - overhead
          - (compress message).length then 1
        else (fragmentationParams (fragPre ++ compress message).length
          overhead).n) := by
    unfold encodeMessage
    dsimp only
    by_cases hc : 0 ≤ (PAYLOAD_LEN : Int) - SINGLETON_PAYLOAD_OVERHEAD
        - overhead - (compress message).length
    · rw [if_pos hc, if_pos hc]
      rfl
    · rw [if_neg hc, if_neg hc]
      simp [fragGetFragments]
  refine ⟨?_, ?_, ?_⟩
  · intro h
    rw [hfraglen, if_pos (hcond.mpr h)]
  · intro h2
    have hc : ¬(0 ≤ (PAYLOAD_LEN : Int) - SINGLETON_PAYLOAD_OVERHEAD - overhead
        - (compress message).length) := by
      rw [hcond]
      omega
    rw [hfraglen, if_neg hc]
    have hcap : 0 < fragCapacity overhead := by
      rcases hov with h | h <;> subst h <;> decide
    show 2 ≤ ((fragPre ++ compress message).length + fragCapacity overhead - 1)
      / fragCapacity overhead
    rw [Nat.le_div_iff_mul_le hcap]
    have hlen : (fragPre ++ compress message).length
        = fragPre.length + (compress message).length := List.length_append _ _
    have hcapv : fragCapacity overhead
        = PAYLOAD_LEN - FRAGMENT_PAYLOAD_OVERHEAD - overhead := rfl
    rw [hlen, hcapv, show PAYLOAD_LEN = 28672 from rfl,
      show FRAGMENT_PAYLOAD_OVERHEAD = 47 from rfl]
    rw [show PAYLOAD_LEN = 28672 from rfl,
      show SINGLETON_PAYLOAD_OVERHEAD = 22 from rfl] at h2
    rcases hov with h | h <;> subst h <;> omega
  · rw [hfraglen]
    unfold getNPacketsToEncode
    dsimp only
    by_cases hc : 0 ≤ (PAYLOAD_LEN : Int) - SINGLETON_PAYLOAD_OVERHEAD
        - overhead - (compress message).length
    · rw [if_pos hc, if_pos hc]
    · rw [if_neg hc, if_neg hc]
      show (fragmentationParams _ overhead).n * 1 = _
      rw [Nat.mul_one]
      by_cases hf : fragPre ≠ []
      · rw [if_pos hf]
        have : (fragPre ++ compress message).length
            = (compress message).length + fragPre.length := by
          rw [List.length_append]
          omega
        rw [this]
      · rw [if_neg hf]
        have hf2 : fragPre = [] := by
          by_contra hh
          exact hf hh
        rw [hf2]
        simp

/-- The identity function standing in for the external `compressData` in
concrete instantiations. -/
def toyCompress : List Nat → List Nat := fun x => x

/-- A padding generator for concrete instantiations: n zero bytes. -/
def toyPad : Nat → List Nat := fun n => List.replicate n 0

theorem c7_encodeMessage_packet_count_witness :
    ((0 : Nat) = 0 ∨ (0 : Nat) = ENC_FWD_OVERHEAD) ∧
    (encodeMessage toyCrypto toyCompress (List.replicate 100 0) 0 []
      toyPad []).length = 1 ∧
    2 ≤ (encodeMessage toyCrypto toyCompress (List.replicate 28651 0) 0 []
      toyPad []).length ∧
    getNPacketsToEncode toyCompress (List.replicate 28651 0) 0 []
      = (encodeMessage toyCrypto toyCompress (List.replicate 28651 0) 0 []
        toyPad []).length := by
  have h1 := c7_encodeMessage_packet_count toyCrypto toyCompress
    (List.replicate 100 0) 0 [] toyPad [] (Or.inl rfl)
  have h2 := c7_encodeMessage_packet_count toyCrypto toyCompress
    (List.replicate 28651 0) 0 [] toyPad [] (Or.inl rfl)
  refine ⟨Or.inl rfl, h1.1 ?_, h2.2.1 ?_, h2.2.2⟩
  · rw [show toyCompress (List.replicate 100 0) = List.replicate 100 0 from rfl,
      List.length_replicate]
    decide
  · rw [show toyCompress (List.replicate 28651 0) = List.replicate 28651 0
      from rfl, List.length_replicate]
    decide

theorem onDataReadOne_slices (control pkt digest : List Nat)
    (hc : control.length = SEND_CONTROL_LEN)
    (hp : pkt.length = 2 ^ 15)
    (hd : digest.length = DIGEST_LEN) :
    ((control ++ pkt ++ digest).take SEND_CONTROL_LEN = control) ∧
    (((control ++ pkt ++ digest).drop SEND_CONTROL_LEN).take
      ((control ++ pkt ++ digest).length - SEND_CONTROL_LEN - DIGEST_LEN)
      = pkt) ∧
    ((control ++ pkt ++ digest).drop
      ((control ++ pkt ++ digest).length - DIGEST_LEN) = digest) := by
  have hlen : (control ++ pkt ++ digest).length
      = SEND_CONTROL_LEN + (2 ^ 15 + DIGEST_LEN) := by
    rw [List.append_assoc, List.length_append, List.length_append, hc, hp, hd]
  refine ⟨?_, ?_, ?_⟩
  · rw [List.append_assoc, ← hc, List.take_left]
  · rw [hlen, List.append_assoc, ← hc, List.drop_left]
    have harith : control.length + (2 ^ 15 + DIGEST_LEN) - control.length
        - DIGEST_LEN = 2 ^ 15 := by omega
    rw [harith, ← hp, List.take_left]
  · rw [hlen]
    have harith : SEND_CONTROL_LEN + (2 ^ 15 + DIGEST_LEN) - DIGEST_LEN
        = SEND_CONTROL_LEN + 2 ^ 15 := by omega
    rw [harith]
    have hcp : (control ++ pkt).length = SEND_CONTROL_LEN + 2 ^ 15 := by
      rw [List.length_append, hc, hp]
    rw [← hcp, List.drop_left]

/-- C2: an inbound MMTP message is exactly 32794 bytes (6-byte control line,
32768-byte packet, 20-byte digest), and `onDataRead` acknowledges: a JUNK
message whose digest is `sha1(packet ++ "JUNK")` with `"RECEIVED\r\n" ++
sha1(packet ++ "RECEIVED JUNK")`; a SEND message whose digest is
`sha1(packet ++ "SEND")` with `"RECEIVED\r\n" ++ sha1(packet ++ "RECEIVED")`,
handing the packet to the packet consumer, when not in reject mode; and with
`"REJECTED\r\n" ++ sha1(packet ++ "REJECTED")` in reject mode. -/
theorem c2_onDataRead_framing_and_acks (C : Crypto) (reject : Bool)
    (control pkt digest : List Nat)
    (hc : control.length = SEND_CONTROL_LEN)
    (hp : pkt.length = 2 ^ 15)
    (hd : digest.length = DIGEST_LEN) :
    (MESSAGE_LEN = 32794) ∧
    ((control ++ pkt ++ digest).length = MESSAGE_LEN) ∧
    (control = junkControl → digest = C.sha1 (pkt ++ strB ("JUNK")) →
      onDataReadOne C reject (control ++ pkt ++ digest)
        = MMTPOut.reply MMTPConsumed.junk
            (receivedControl ++ C.sha1 (pkt ++ strB ("RECEIVED JUNK")))) ∧
    (control = sendControl → digest = C.sha1 (pkt ++ strB ("SEND")) →
      reject = false →
      onDataReadOne C reject (control ++ pkt ++ digest)
        = MMTPOut.reply (MMTPConsumed.packet pkt)
            (receivedControl ++ C.sha1 (pkt ++ strB ("RECEIVED")))) ∧
    (control = sendControl → digest = C.sha1 (pkt ++ strB ("SEND")) →
      reject = true →
      onDataReadOne C reject (control ++ pkt ++ digest)
        = MMTPOut.reply MMTPConsumed.rejected
            (rejectedControl ++ C.sha1 (pkt ++ strB ("REJECTED")))) := by
  obtain ⟨h1, h2, h3⟩ := onDataReadOne_slices control pkt digest hc hp hd
  refine ⟨by decide, ?_, ?_, ?_, ?_⟩
  · rw [List.append_assoc, List.length_append, List.length_append, hc, hp, hd]
    decide
  · intro hcj hdig
    unfold onDataReadOne
    dsimp only
    rw [h1, h2, h3, hcj, hdig]
    simp
  · intro hcs hdig hrj
    unfold onDataReadOne
    dsimp only
    rw [h1, h2, h3, hcs, hdig, hrj]
    rw [if_neg (by decide)]
    simp
  · intro hcs hdig hrj
    unfold onDataReadOne
    dsimp only
    rw [h1, h2, h3, hcs, hdig, hrj]
    rw [if_neg (by decide)]
    simp

theorem c2_onDataRead_framing_and_acks_witness :
    junkControl.length = SEND_CONTROL_LEN ∧
    onDataReadOne toyCrypto false
      (junkControl ++ List.replicate (2 ^ 15) 0 ++ List.replicate 20 0)
      = MMTPOut.reply MMTPConsumed.junk
          (receivedControl ++ toyCrypto.sha1
            (List.replicate (2 ^ 15) 0 ++ strB ("RECEIVED JUNK"))) := by
  have h := c2_onDataRead_framing_and_acks toyCrypto false junkControl
    (List.replicate (2 ^ 15) 0) (List.replicate 20 0) (by decide)
    (by rw [List.length_replicate]) (by decide)
  exact ⟨by decide, h.2.2.1 rfl (by decide)⟩

/-- C9: reject mode affects only SEND messages: with `rejectPackets` set, a
JUNK message with a valid digest is still acknowledged with
`"RECEIVED\r\n" ++ sha1(packet ++ "RECEIVED JUNK")` and consumed by the junk
callback, and a REJECTED acknowledgement is only ever produced for a SEND
control line with reject mode on. -/
theorem c9_reject_mode_only_send (C : Crypto) (control pkt digest : List Nat)
    (hc : control.length = SEND_CONTROL_LEN)
    (hp : pkt.length = 2 ^ 15)
    (hd : digest.length = DIGEST_LEN) :
    (control = junkControl → digest = C.sha1 (pkt ++ strB ("JUNK")) →
      onDataReadOne C true (control ++ pkt ++ digest)
        = MMTPOut.reply MMTPConsumed.junk
            (receivedControl ++ C.sha1 (pkt ++ strB ("RECEIVED JUNK")))) ∧
    (∀ (reject : Bool) (data ack : List Nat),
      onDataReadOne C reject data = MMTPOut.reply MMTPConsumed.rejected ack →
      data.take SEND_CONTROL_LEN = sendControl ∧ reject = true) := by
  constructor
  · intro hcj hdig
    obtain ⟨h1, h2, h3⟩ := onDataReadOne_slices control pkt digest hc hp hd
    unfold onDataReadOne
    dsimp only
    rw [h1, h2, h3, hcj, hdig]
    simp
  · intro reject data ack hout
    unfold onDataReadOne at hout
    dsimp only at hout
    split at hout
    · split at hout
      · simp at hout
      · simp at hout
    · split at hout
      next hsend =>
        split at hout
        · split at hout
          next hrej =>
            exact ⟨eq_of_beq hsend, hrej⟩
          next hrej =>
            simp at hout
        · simp at hout
      next hsend =>
        simp at hout

theorem c9_reject_mode_only_send_witness :
    onDataReadOne toyCrypto true
      (junkControl ++ List.replicate (2 ^ 15) 0 ++ List.replicate 20 0)
      = MMTPOut.reply MMTPConsumed.junk
          (receivedControl ++ toyCrypto.sha1
            (List.replicate (2 ^ 15) 0 ++ strB ("RECEIVED JUNK"))) := by
  exact (c9_reject_mode_only_send toyCrypto junkControl
    (List.replicate (2 ^ 15) 0) (List.replicate 20 0) (by decide)
    (by rw [List.length_replicate]) (by decide)).1 rfl (by decide)

/-- C6: with bandwidth n and no explicit burst, `setBandwidth` puts
`max_bucket = 5 * bytes_per_tick`; every `tick()` sets
`bucket := min(bucket + bytes_per_tick, max_bucket)`; and whenever the bucket
is `≤ 0` on entry to `process(timeout)`, the reactor sleeps for the timeout
and performs no socket I/O. -/
theorem c6_token_bucket (s t : BWState) (n b bw mb : Int) (anyFds : Bool) :
    ((setBandwidth s (some n) none).bandwidthPerTick = some n ∧
     (setBandwidth s (some n) none).maxBucket = some (n * 5)) ∧
    (t.bandwidthPerTick = some bw → t.maxBucket = some mb →
      t.bucket = some b → (tick t).bucket = some (min (b + bw) mb)) ∧
    (t.bucket = some b → b ≤ 0 →
      processEntry t anyFds = ProcessAction.sleepReturn) := by
  refine ⟨⟨?_, ?_⟩, ?_, ?_⟩
  · simp [setBandwidth, TICK_INTERVAL]
  · simp [setBandwidth, TICK_INTERVAL]
  · intro h1 h2 h3
    have hmin : (if b + bw > mb then mb else b + bw) = min (b + bw) mb := by
      split <;> omega
    simp [tick, h1, h2, h3, hmin]
  · intro h1 h2
    cases anyFds <;> simp [processEntry, h1, h2]

theorem c6_token_bucket_witness :
    (setBandwidth ⟨none, none, none⟩ (some 7) none).bandwidthPerTick = some 7 ∧
    (setBandwidth ⟨none, none, none⟩ (some 7) none).maxBucket = some (7 * 5) ∧
    (tick ⟨some 7, some 35, some 33⟩).bucket = some (min (33 + 7) 35) ∧
    processEntry ⟨some 7, some 35, some (-3)⟩ true
      = ProcessAction.sleepReturn := by
  have h1 := c6_token_bucket ⟨none, none, none⟩ ⟨some 7, some 35, some 33⟩
    7 33 7 35 true
  have h2 := c6_token_bucket ⟨none, none, none⟩ ⟨some 7, some 35, some (-3)⟩
    7 (-3) 7 35 true
  exact ⟨h1.1.1, h1.1.2, h1.2.1 rfl rfl rfl, h2.2.2 rfl (by decide)⟩
